import Mathlib

/-!
Verification of the Harbor TouristPulse repository against its
natural-language specification.

The repository ships a Next.js frontend (`components/TouristPulse.tsx`,
`app/page.tsx`, `app/layout.tsx`); the Python FastAPI backend the spec
describes (the analytical core: signal store, aggregator, scoring, tier
classifier, explanation assembler) is referenced by the frontend and the
README but its code is not in the repository.  Frontend behaviour is
embedded directly from the TypeScript source; the analytical core is
modelled from the spec, as marked on each definition.
-/

set_option maxRecDepth 4000

namespace Harbor

/-! ### Frontend data types, embedded from `components/TouristPulse.tsx` -/

/-- Embeds `interface DemandSignal` from TouristPulse.tsx (lines 6-11). -/
structure DemandSignal where
  source : String
  factor : String
  impact : String
  weight : ℚ
deriving DecidableEq

/-- Embeds `interface TouristPulseOutlook` from TouristPulse.tsx (lines 13-19).
`demand_level` is a TS string-literal union; it is carried as a string here
since the component treats it as an arbitrary string at runtime. -/
structure TouristPulseOutlook where
  date : String
  demand_level : String
  confidence : ℚ
  drivers : List DemandSignal
  summary : String
deriving DecidableEq

/-- Embeds `interface TouristPulseResponse` from TouristPulse.tsx (lines 21-25).
The TS declaration types `outlook` as a required array, but the component
guards against a missing/null field (`data.outlook || []`), so the wire
value is modelled as an `Option`. -/
structure TouristPulseResponse where
  location : String
  outlook : Option (List TouristPulseOutlook)
  generated_at : String
deriving DecidableEq

/-- The record returned by `getLevelColor` (TouristPulse.tsx lines 61-74). -/
structure LevelColor where
  bg : String
  textColor : String
  border : String
  label : String
deriving DecidableEq

/-- Embeds `getLevelColor` from TouristPulse.tsx lines 61-74, a switch on the
demand-level string with a default branch. -/
def getLevelColor (level : String) : LevelColor :=
  if level = "very_high" then ⟨"#d8b4fe", "#6b21a8", "#a855f7", "VERY HIGH"⟩
  else if level = "high" then ⟨"#bbf7d0", "#166534", "#22c55e", "HIGH"⟩
  else if level = "moderate" then ⟨"#bfdbfe", "#1e40af", "#3b82f6", "NORMAL"⟩
  else if level = "low" then ⟨"#fef3c7", "#92400e", "#f59e0b", "LOW"⟩
  else ⟨"#e5e7eb", "#374151", "#9ca3af", "UNKNOWN"⟩

/-- Models the browser API `encodeURIComponent`; the properties verified
here do not depend on the encoding itself, only on which string is fed to
it, so it is embedded as an injection marker on its input. -/
def encodeURIComponent (s : String) : String := s

/-- The `days` query parameter hard-coded in `loadTouristOutlook`
(TouristPulse.tsx line 45: `&days=30`). -/
def requestDays : Nat := 30

/-- The URL built by `loadTouristOutlook` (TouristPulse.tsx lines 43-45). -/
def touristOutlookUrl (backendUrl : String) (location : String) : String :=
  backendUrl ++ "/touristpulse/outlook?location=" ++ encodeURIComponent location ++
    "&days=" ++ toString requestDays

/-- The component state set by `loadTouristOutlook`: the `outlook`,
`loading` and `error` React states after the fetch settles. -/
structure ComponentState where
  outlook : List TouristPulseOutlook
  loading : Bool
  error : Option String
deriving DecidableEq

/-- Outcome of the `fetch` call in `loadTouristOutlook`: either a settled
response (with its HTTP status, its `ok` flag and parsed JSON body) or a
rejected promise carrying an error message. -/
inductive FetchOutcome where
  | success (status : Nat) (ok : Bool) (body : TouristPulseResponse)
  | failure (message : String)
deriving DecidableEq

/-- Embeds `loadTouristOutlook` from TouristPulse.tsx lines 37-58: on `response.ok`
it stores `data.outlook || []` and clears the error; on `!response.ok` it
throws `Backend API error: STATUS`, which the catch block stores as the
error message (the outlook state keeps its initial `[]`); a rejected fetch
lands in the same catch block.  `finally` clears `loading`. -/
def loadTouristOutlook (res : FetchOutcome) : ComponentState :=
  match res with
  | .success status ok body =>
      if ok then
        { outlook := body.outlook.getD [], loading := false, error := none }
      else
        { outlook := [], loading := false,
          error := some ("Backend API error: " ++ toString status) }
  | .failure msg => { outlook := [], loading := false, error := some msg }

/-- Models `new Date(s).toLocaleString()`: a deterministic function of the
input string (the exact locale text is environment behaviour; the verified
properties depend only on which field is passed in). -/
def dateToLocaleString (s : String) : String := "locale(" ++ s ++ ")"

/-- Models `new Date(s).toLocaleDateString(en-US, weekday/month/day)`. -/
def dateToLocaleDateString (s : String) : String := "localeDate(" ++ s ++ ")"

/-- Models `q.toFixed(2)` on the driver weight: a deterministic rendering
of the rational. -/
def ratToFixed2 (q : ℚ) : String := toString (round (q * 100)) ++ "e-2"

/-- One driver line rendered in the Drivers list. -/
structure RenderedDriver where
  source : String
  factor : String
  impact : String
  weightText : String
deriving DecidableEq

/-- One day card of the forecast grid (TouristPulse.tsx lines 107-162):
date label, level colours/label from `getLevelColor`, the confidence note
(shown only when `day.confidence` is truthy, i.e. nonzero), the summary
(shown only when truthy, i.e. nonempty) and the driver lines. -/
structure RenderedDay where
  dateLabel : String
  levelLabel : String
  levelBg : String
  levelText : String
  levelBorder : String
  confidencePct : Option ℤ
  summaryShown : Option String
  driverLines : List RenderedDriver
deriving DecidableEq

/-- What the component renders, as structured data: the loading screen, the
error screen, or the forecast view with heading, the `Generated at` line,
the day cards and whether the `No outlook data available` div is shown. -/
inductive RenderedView where
  | loadingView
  | errorView (message : String)
  | forecastView (heading : String) (generatedAt : String)
      (days : List RenderedDay) (noDataShown : Bool)
deriving DecidableEq

/-- Rendering of one outlook entry (TouristPulse.tsx lines 107-162). -/
def renderDay (day : TouristPulseOutlook) : RenderedDay :=
  let colors := getLevelColor day.demand_level
  { dateLabel := dateToLocaleDateString day.date,
    levelLabel := colors.label,
    levelBg := colors.bg,
    levelText := colors.textColor,
    levelBorder := colors.border,
    confidencePct := if day.confidence = 0 then none else some (round (day.confidence * 100)),
    summaryShown := if day.summary = "" then none else some day.summary,
    driverLines :=
      if day.drivers.length = 0 then []
      else day.drivers.map (fun d => ⟨d.source, d.factor, d.impact, ratToFixed2 d.weight⟩) }

/-- The `TouristPulse` component render (TouristPulse.tsx lines 76-179):
loading screen while `loading`, error screen when `error` is set, else the
forecast view.  The `Generated at` line shows
`outlook.length > 0 ? new Date(outlook[0].date).toLocaleString() : N/A`
(lines 101-104) and the no-data div shows iff `outlook.length === 0`. -/
def renderTouristPulse (st : ComponentState) (location : String) : RenderedView :=
  if st.loading then .loadingView
  else
    match st.error with
    | some e => .errorView e
    | none =>
        .forecastView ("30-Day Tourism Forecast for " ++ location)
          (match st.outlook with
           | [] => "N/A"
           | first :: _ => dateToLocaleString first.date)
          (st.outlook.map renderDay)
          (st.outlook.length = 0)

/-! ### Claims about the frontend (C7-C10) -/

/-- C7: every outlook query supplies a location string and an integer days
horizon between 1 and 90 inclusive; in particular the `days` parameter of
every request the TouristPulse client issues to `/touristpulse/outlook` is
the constant 30, which lies within the 1-90 limit, and the URL carries a
location string. -/
theorem client_days_in_range (backendUrl location : String) :
    1 ≤ requestDays ∧ requestDays ≤ 90 ∧
    touristOutlookUrl backendUrl location =
      backendUrl ++ "/touristpulse/outlook?location=" ++ encodeURIComponent location ++
        "&days=30" := by
  refine ⟨by decide, by decide, ?_⟩
  have h30 : toString requestDays = "30" := by decide
  have h2 : ("&days=" ++ "30" : String) = "&days=30" := by decide
  simp only [touristOutlookUrl, h30, String.append_assoc, h2]

/-- C8: `getLevelColor` is total over arbitrary demand-level strings: the
four tier values map to the styles labelled LOW / NORMAL / HIGH /
VERY HIGH (note `moderate` is displayed as NORMAL), and any other input
maps to the gray UNKNOWN style. -/
theorem getLevelColor_total (s : String)
    (h : s ≠ "low" ∧ s ≠ "moderate" ∧ s ≠ "high" ∧ s ≠ "very_high") :
    getLevelColor "low" = ⟨"#fef3c7", "#92400e", "#f59e0b", "LOW"⟩ ∧
    getLevelColor "moderate" = ⟨"#bfdbfe", "#1e40af", "#3b82f6", "NORMAL"⟩ ∧
    getLevelColor "high" = ⟨"#bbf7d0", "#166534", "#22c55e", "HIGH"⟩ ∧
    getLevelColor "very_high" = ⟨"#d8b4fe", "#6b21a8", "#a855f7", "VERY HIGH"⟩ ∧
    getLevelColor s = ⟨"#e5e7eb", "#374151", "#9ca3af", "UNKNOWN"⟩ := by
  obtain ⟨h1, h2, h3, h4⟩ := h
  refine ⟨by decide, by decide, by decide, by decide, ?_⟩
  simp only [getLevelColor, if_neg h4, if_neg h3, if_neg h2, if_neg h1]

theorem getLevelColor_total_witness :
    getLevelColor "banana" = ⟨"#e5e7eb", "#374151", "#9ca3af", "UNKNOWN"⟩ :=
  (getLevelColor_total "banana" (by decide)).2.2.2.2

/-- The default outlook entry used to state head-access facts. -/
def emptyOutlookEntry : TouristPulseOutlook :=
  { date := "", demand_level := "", confidence := 0, drivers := [], summary := "" }

/-- C9: two successful backend responses that differ only in their
`generated_at` field and have a non-empty outlook list render identically;
moreover the rendered `Generated at` text is derived from
`outlook[0].date`, so `generated_at` has no effect on the output. -/
theorem render_ignores_generated_at (status : Nat) (r1 r2 : TouristPulseResponse)
    (hloc : r1.location = r2.location) (hout : r1.outlook = r2.outlook)
    (hne : r1.outlook.getD [] ≠ []) :
    renderTouristPulse (loadTouristOutlook (.success status true r1)) "Santa Cruz" =
      renderTouristPulse (loadTouristOutlook (.success status true r2)) "Santa Cruz" ∧
    renderTouristPulse (loadTouristOutlook (.success status true r1)) "Santa Cruz" =
      .forecastView "30-Day Tourism Forecast for Santa Cruz"
        (dateToLocaleString ((r1.outlook.getD []).headD emptyOutlookEntry).date)
        ((r1.outlook.getD []).map renderDay) false := by
  constructor
  · simp only [loadTouristOutlook, renderTouristPulse, hout]
  · simp only [loadTouristOutlook, renderTouristPulse, if_pos rfl]
    cases hcons : r1.outlook.getD [] with
    | nil => exact absurd hcons hne
    | cons first rest =>
        simp [hcons]

theorem render_ignores_generated_at_witness :
    renderTouristPulse
        (loadTouristOutlook (.success 200 true
          ⟨"Santa Cruz", some [⟨"2026-01-01", "low", 1, [], "quiet"⟩], "t1"⟩))
        "Santa Cruz" =
      renderTouristPulse
        (loadTouristOutlook (.success 200 true
          ⟨"Santa Cruz", some [⟨"2026-01-01", "low", 1, [], "quiet"⟩], "t2"⟩))
        "Santa Cruz" :=
  (render_ignores_generated_at 200
    ⟨"Santa Cruz", some [⟨"2026-01-01", "low", 1, [], "quiet"⟩], "t1"⟩
    ⟨"Santa Cruz", some [⟨"2026-01-01", "low", 1, [], "quiet"⟩], "t2"⟩
    rfl rfl (by decide)).1

/-- C10: a successful (`response.ok`) reply whose JSON `outlook` field is
absent or null makes the component substitute the empty list and render the
`No outlook data available` state: no thrown error and no error state. -/
theorem missing_outlook_yields_empty (status : Nat) (r : TouristPulseResponse)
    (h : r.outlook = none) :
    loadTouristOutlook (.success status true r) =
      { outlook := [], loading := false, error := none } ∧
    renderTouristPulse (loadTouristOutlook (.success status true r)) "Santa Cruz" =
      .forecastView "30-Day Tourism Forecast for Santa Cruz" "N/A" [] true := by
  constructor
  · simp [loadTouristOutlook, h]
  · simp [loadTouristOutlook, renderTouristPulse, h]

theorem missing_outlook_yields_empty_witness :
    loadTouristOutlook (.success 200 true ⟨"Santa Cruz", none, "t"⟩) =
      { outlook := [], loading := false, error := none } :=
  (missing_outlook_yields_empty 200 ⟨"Santa Cruz", none, "t"⟩ rfl).1

/-! ### The analytical core, modelled from the spec
The backend implementing the Forecast Engine is not part of the
repository; each definition below is modelled from the spec section it
cites. -/

/-- Modelled from the spec: the Signal record of the data model (§3),
`{source, timestamp, metric, value}` (the backend's signal schema is not
in the repository). -/
structure Signal where
  source : String
  metric : String
  timestamp : Nat
  value : ℚ
deriving DecidableEq

/-- Modelled from the spec: the Signal Store (§3), typed time-indexed
records, most recent write first. -/
abbrev SignalStore := List Signal

/-- Modelled from the spec: Signal Ingestion (§4.1) - a valid record is
appended to the Signal Store and a duplicate `(source, metric, timestamp)`
triple overwrites the prior value (last-write-wins). -/
def ingest (store : SignalStore) (r : Signal) : SignalStore :=
  r :: store.filter
    (fun x => !(x.source == r.source && x.metric == r.metric && x.timestamp == r.timestamp))

/-- Modelled from the spec: retrieval from the Signal Store by
`(source, metric, timestamp)` (§6, persistence layer get by triple). -/
def retrieve (store : SignalStore) (source metric : String) (ts : Nat) : Option ℚ :=
  (store.find?
    (fun x => x.source == source && x.metric == metric && x.timestamp == ts)).map Signal.value

/-- Modelled from the spec: the Feature Aggregator (§4.2) - for a requested
period and metric, aggregates all Signals whose timestamp falls in that
period with the per-metric aggregation function (shown here for the
additive metrics: a sum over the period's signals). -/
def aggregate (store : SignalStore) (period : Nat) (metric : String) : ℚ :=
  ((store.filter (fun x => x.metric == metric && x.timestamp == period)).map Signal.value).sum

/-- Modelled from the spec: the Feature of the data model (§3),
`{period, metric, aggregated_value}`; a recomputable cache of an
aggregation. -/
structure Feature where
  period : Nat
  metric : String
  aggregated_value : ℚ
deriving DecidableEq

/-- Modelled from the spec: Features are "a cache of an aggregation" (§3);
the cache carried across aggregation runs. -/
abbrev FeatureCache := List Feature

/-- Lookup of a cached Feature by period and metric. -/
def cacheLookup (c : FeatureCache) (period : Nat) (metric : String) : Option ℚ :=
  (c.find? (fun f => f.period == period && f.metric == metric)).map Feature.aggregated_value

/-- Modelled from the spec: one aggregation step that consults the Feature
cache and recomputes from the Signal Store on a miss (§3: Features are
derived, recomputed on demand; §4.2). -/
def aggregateCached (store : SignalStore) (c : FeatureCache) (period : Nat) (metric : String) :
    ℚ × FeatureCache :=
  match cacheLookup c period metric with
  | some v => (v, c)
  | none => (aggregate store period metric, ⟨period, metric, aggregate store period metric⟩ :: c)

/-- Modelled from the spec: an aggregation run over a list of requested
(period, metric) pairs, threading the Feature cache (§4.2). -/
def runAggregation (store : SignalStore) :
    FeatureCache → List (Nat × String) → List Feature × FeatureCache
  | c, [] => ([], c)
  | c, (p, m) :: rest =>
      let step := aggregateCached store c p m
      let next := runAggregation store step.2 rest
      (⟨p, m, step.1⟩ :: next.1, next.2)

/-- Modelled from the spec: the demand module's signal sources - local
events, weather conditions, inbound traffic (§2, §4.3). -/
def expectedSources : List String := ["events", "weather", "traffic"]

/-- Modelled from the spec: the demand module's configured source weights,
which must sum to 1.0 (§4.3 multi-factor weighted scoring). -/
def sourceWeight (m : String) : ℚ :=
  if m = "events" then 2/5
  else if m = "weather" then 7/20
  else if m = "traffic" then 1/4
  else 0

/-- Modelled from the spec: Scores derived from a list of Features by the
multi-factor weighted rule Σ feature_value_i × source_weight_i (§4.3). -/
def demandScoreOf (feats : List Feature) : ℚ :=
  (feats.map (fun f => sourceWeight f.metric * f.aggregated_value)).sum

/-- Modelled from the spec: the demand Score for one day, the weighted sum
of that day's per-source Features (§4.3). -/
def demandScore (store : SignalStore) (day : Nat) : ℚ :=
  (expectedSources.map (fun m => sourceWeight m * aggregate store day m)).sum

/-- Modelled from the spec: data completeness for one day - the fraction of
the module's expected sources that contributed at least one Signal
(§4.2 degraded confidence on missing data, §9 combination rule). -/
def completeness (store : SignalStore) (day : Nat) : ℚ :=
  ((expectedSources.filter
      (fun s => store.any (fun x => x.source == s && x.timestamp == day))).length : ℚ) / 3

/-- Modelled from the spec: the per-day decay factor that makes confidence
non-increasing in the forecast horizon (§3 invariants, §8). -/
def decayFactor : ℚ := 9/10

/-- Modelled from the spec: the confidence reported for a day, data
completeness decayed by the horizon (§3: confidence is monotonically
non-increasing as days-ahead increases; §9 explicit combination rule). -/
def confidenceAt (store : SignalStore) (day : Nat) : ℚ :=
  completeness store day * decayFactor ^ day

/-- Modelled from the spec: the tourism module's ordered Tier enum,
low < moderate < high < very_high (§3). -/
inductive Tier where
  | low
  | moderate
  | high
  | very_high
deriving DecidableEq

/-- Modelled from the spec: Tier serialization as lowercase snake-case
strings (§6). -/
def tierToString : Tier → String
  | .low => "low"
  | .moderate => "moderate"
  | .high => "high"
  | .very_high => "very_high"

/-- The tourism Tier at a classifier level index 0..3. -/
def tierOfIndex : Nat → Tier
  | 0 => .low
  | 1 => .moderate
  | 2 => .high
  | _ => .very_high

/-- Modelled from the spec: the Tier Classifier's dual thresholds (§4.4) -
`up t` is the threshold a score must cross to move from level `t` up to
`t+1`; `down t` is the strictly lower threshold below which a score falls
back from level `t+1` to `t`. -/
structure HystConfig where
  up : Nat → ℚ
  down : Nat → ℚ

/-- Modelled from the spec: upward transitions of the classifier (§4.4) -
from level `t`, promote while the score has crossed the upper threshold of
the current level; fuel bounds the walk by the number of levels. -/
def promoteFrom (c : HystConfig) : Nat → Nat → ℚ → Nat
  | 0, t, _ => t
  | fuel + 1, t, x => if t < 3 ∧ c.up t ≤ x then promoteFrom c fuel (t + 1) x else t

/-- Modelled from the spec: downward transitions of the classifier (§4.4) -
from level `t+1`, demote while the score has fallen below the distinct
lower threshold `down t`. -/
def demoteFrom (c : HystConfig) : Nat → ℚ → Nat
  | 0, _ => 0
  | t + 1, x => if x < c.down t then demoteFrom c t x else t + 1

/-- Modelled from the spec: one classification step with hysteresis (§4.4):
promote as far as the upper thresholds allow, then demote as far as the
lower thresholds require, starting from the persisted previous tier. -/
def stepTier (c : HystConfig) (t : Nat) (x : ℚ) : Nat :=
  demoteFrom c (promoteFrom c 3 t x) x

/-- Modelled from the spec: the first-ever classification for an entity
uses the threshold bands directly, with no prior state (§4.4). -/
def classifyInit (c : HystConfig) (x : ℚ) : Nat :=
  promoteFrom c 3 0 x

/-- Modelled from the spec: the tourism module's threshold bands, each
demotion threshold strictly below its promotion threshold (§4.4; the spec
fixes no tourism numbers, only the dual-threshold shape). -/
def tourismHyst : HystConfig where
  up := fun t => if t = 0 then 30 else if t = 1 then 60 else 85
  down := fun t => if t = 0 then 25 else if t = 1 then 52 else 78

/-- The tier-level trajectory of the classifier over a score sequence,
starting from a persisted level. -/
def tierTrajectory (c : HystConfig) (t : Nat) : List ℚ → List Nat
  | [] => [t]
  | x :: xs => t :: tierTrajectory c (stepTier c t x) xs

/-- The number of tier changes along a trajectory of levels. -/
def changeCount : List Nat → Nat
  | [] => 0
  | [_] => 0
  | a :: b :: rest => (if a = b then 0 else 1) + changeCount (b :: rest)

/-- Modelled from the spec: the impact enum of a Driver (§3),
positive / negative / neutral. -/
inductive Impact where
  | positive
  | negative
  | neutral
deriving DecidableEq

/-- Modelled from the spec: impact serialization (§6). -/
def impactToString : Impact → String
  | .positive => "positive"
  | .negative => "negative"
  | .neutral => "neutral"

/-- Modelled from the spec: the Driver record of the data model (§3),
`{source, factor, impact, weight}`. -/
structure Driver where
  source : String
  factor : String
  impact : Impact
  weight : ℚ
deriving DecidableEq

/-- The impact sign of a signed contribution. -/
def impactOf (contrib : ℚ) : Impact :=
  if 0 < contrib then .positive else if contrib < 0 then .negative else .neutral

/-- Modelled from the spec: the Explanation Assembler's top-K cap,
default 5 (§4.5). -/
def topK : Nat := 5

/-- Modelled from the spec: the per-day raw driver contributions of the
demand module - one per source, the weighted feature value (§4.5: drivers
come from the Features contributing to the Score). -/
def rawContributions (store : SignalStore) (day : Nat) : List (String × ℚ) :=
  expectedSources.map (fun m => (m, sourceWeight m * aggregate store day m))

/-- Modelled from the spec: the Explanation Assembler (§4.5) - rank the
contributions by absolute weighted contribution, keep the top-K, and
normalize their weights to sum to 1 (zero weights when every contribution
vanishes). -/
def assembleDrivers (contribs : List (String × ℚ)) : List Driver :=
  let ranked := (contribs.insertionSort (fun a b => |b.2| ≤ |a.2|)).take topK
  let total := (ranked.map (fun sc => |sc.2|)).sum
  ranked.map (fun sc =>
    { source := sc.1, factor := sc.1 ++ " signal", impact := impactOf sc.2,
      weight := if total = 0 then 0 else |sc.2| / total })

/-- Modelled from the spec: the Outlook of the data model (§3) in its wire
shape (§6): date (as day offset into the horizon), demand level, confidence,
ordered drivers, summary. -/
structure Outlook where
  date : Nat
  demand_level : Tier
  confidence : ℚ
  drivers : List Driver
  summary : String
deriving DecidableEq

/-- The placeholder driver used when the driver list is empty. -/
def emptyDriver : Driver := { source := "", factor := "", impact := .neutral, weight := 0 }

/-- Modelled from the spec: the deterministic summary template selected by
Tier and the dominant Driver's impact sign (§4.5). -/
def summaryFor (t : Tier) (dom : Impact) : String :=
  match dom with
  | .negative => "Caution: " ++ tierToString t ++ " demand expected, led by a negative factor"
  | .positive => tierToString t ++ " demand expected, led by a positive factor"
  | .neutral => tierToString t ++ " demand expected"

/-- Modelled from the spec: assembly of one day's Outlook - score the day,
classify with the threshold bands (first classification, §4.4), decay the
confidence, assemble and rank the drivers, render the summary (§2 control
flow). -/
def mkOutlook (store : SignalStore) (day : Nat) : Outlook :=
  let drivers := assembleDrivers (rawContributions store day)
  let t := tierOfIndex (classifyInit tourismHyst (demandScore store day))
  { date := day,
    demand_level := t,
    confidence := confidenceAt store day,
    drivers := drivers,
    summary := summaryFor t (drivers.headD emptyDriver).impact }

/-- Modelled from the spec: the outlook query response (§6) - the ordered
sequence of Outlooks, one per day of the horizon, the echoed location and
the generated_at timestamp. -/
structure OutlookResponse where
  location : String
  outlook : List Outlook
  generated_at : String
deriving DecidableEq

/-- Modelled from the spec: the outlook query (§6) - the engine pulls the
horizon's signals, aggregates, scores, classifies and assembles one Outlook
per day, echoing the location and stamping the generation time (passed in
by the shell; the core is pure). -/
def touristOutlookQuery (store : SignalStore) (location : String) (days : Nat)
    (now : String) : OutlookResponse :=
  { location := location,
    outlook := (List.range days).map (mkOutlook store),
    generated_at := now }

/-! ### Claims about the analytical core (C1-C6) -/

/-- Filtering for a predicate after filtering for its negation leaves
nothing. -/
theorem filter_not_filter_self {α : Type} (p : α → Bool) (l : List α) :
    (l.filter (fun x => !p x)).filter p = [] := by
  induction l with
  | nil => rfl
  | cons a l ih =>
      cases hpa : p a <;> simp [List.filter_cons, hpa, ih]

/-- C5: ingestion is last-write-wins - after ingesting two records with the
same `(source, metric, timestamp)` triple and different values, only the
second value is retrievable, and the store holds exactly one record under
that key (the values do not accumulate). -/
theorem ingest_last_write_wins (store : SignalStore) (a b : Signal)
    (hs : a.source = b.source) (hm : a.metric = b.metric) (ht : a.timestamp = b.timestamp)
    (hv : a.value ≠ b.value) :
    retrieve (ingest (ingest store a) b) b.source b.metric b.timestamp = some b.value ∧
    (ingest (ingest store a) b).filter
      (fun x => x.source == b.source && x.metric == b.metric && x.timestamp == b.timestamp) =
      [b] := by
  have hb : (b.source == b.source && b.metric == b.metric && b.timestamp == b.timestamp) =
      true := by simp
  have hfind : List.find?
      (fun x => x.source == b.source && x.metric == b.metric && x.timestamp == b.timestamp)
      (ingest (ingest store a) b) = some b :=
    List.find?_cons_of_pos _ hb
  have hfilter : (ingest (ingest store a) b).filter
      (fun x => x.source == b.source && x.metric == b.metric && x.timestamp == b.timestamp) =
      b :: ((ingest store a).filter
          (fun x =>
            !(x.source == b.source && x.metric == b.metric && x.timestamp == b.timestamp))).filter
        (fun x => x.source == b.source && x.metric == b.metric && x.timestamp == b.timestamp) :=
    List.filter_cons_of_pos hb
  constructor
  · show (List.find?
        (fun x => x.source == b.source && x.metric == b.metric && x.timestamp == b.timestamp)
        (ingest (ingest store a) b)).map Signal.value = some b.value
    rw [hfind]
    rfl
  · rw [hfilter, filter_not_filter_self]

theorem ingest_last_write_wins_witness :
    retrieve
        (ingest (ingest [] ⟨"weather", "temp", 5, 17⟩) ⟨"weather", "temp", 5, 19⟩)
        "weather" "temp" 5 = some 19 :=
  (ingest_last_write_wins [] ⟨"weather", "temp", 5, 17⟩ ⟨"weather", "temp", 5, 19⟩
    rfl rfl rfl (by decide)).1

/-- A Feature cache is consistent with a store when every cached value is
the value the aggregator would recompute. -/
def CacheConsistent (store : SignalStore) (c : FeatureCache) : Prop :=
  ∀ p m v, cacheLookup c p m = some v → v = aggregate store p m

theorem cacheConsistent_nil (store : SignalStore) : CacheConsistent store [] := by
  intro p m v h
  simp [cacheLookup] at h

theorem cacheLookup_cons (f : Feature) (c : FeatureCache) (p : Nat) (m : String) :
    cacheLookup (f :: c) p m =
      if f.period == p && f.metric == m then some f.aggregated_value
      else cacheLookup c p m := by
  cases h : (f.period == p && f.metric == m) with
  | true =>
      have hfind : List.find? (fun g => g.period == p && g.metric == m) (f :: c) = some f :=
        List.find?_cons_of_pos _ h
      show (List.find? (fun g => g.period == p && g.metric == m) (f :: c)).map
          Feature.aggregated_value = _
      rw [hfind]
      simp
  | false =>
      have hfind : List.find? (fun g => g.period == p && g.metric == m) (f :: c) =
          List.find? (fun g => g.period == p && g.metric == m) c :=
        List.find?_cons_of_neg _ (by simp [h])
      show (List.find? (fun g => g.period == p && g.metric == m) (f :: c)).map
          Feature.aggregated_value = _
      rw [hfind]
      simp [cacheLookup]

theorem aggregateCached_fst (store : SignalStore) (c : FeatureCache) (p : Nat) (m : String)
    (h : CacheConsistent store c) :
    (aggregateCached store c p m).1 = aggregate store p m := by
  unfold aggregateCached
  cases hl : cacheLookup c p m with
  | none => rfl
  | some v => exact h p m v hl

theorem aggregateCached_snd (store : SignalStore) (c : FeatureCache) (p : Nat) (m : String)
    (h : CacheConsistent store c) :
    CacheConsistent store (aggregateCached store c p m).2 := by
  unfold aggregateCached
  cases hl : cacheLookup c p m with
  | none =>
      intro p1 m1 v1 hv1
      rw [cacheLookup_cons] at hv1
      by_cases hkey : ((p : Nat) == p1 && (m : String) == m1) = true
      · rw [if_pos hkey] at hv1
        have hpm : p = p1 ∧ m = m1 := by simpa using hkey
        cases Option.some.inj hv1
        rw [← hpm.1, ← hpm.2]
      · rw [if_neg hkey] at hv1
        exact h p1 m1 v1 hv1
  | some v => exact h

theorem runAggregation_spec (store : SignalStore) (pms : List (Nat × String)) :
    ∀ c : FeatureCache, CacheConsistent store c →
      (runAggregation store c pms).1 =
        pms.map (fun pm => ⟨pm.1, pm.2, aggregate store pm.1 pm.2⟩) ∧
      CacheConsistent store (runAggregation store c pms).2 := by
  induction pms with
  | nil => intro c hc; exact ⟨rfl, hc⟩
  | cons pm rest ih =>
      intro c hc
      obtain ⟨p, m⟩ := pm
      have h1 := aggregateCached_fst store c p m hc
      have h2 := aggregateCached_snd store c p m hc
      obtain ⟨ha, hb⟩ := ih _ h2
      refine ⟨?_, hb⟩
      simp only [runAggregation, List.map_cons, ha, h1]

/-- C6: feature aggregation is idempotent - on an unchanged Signal Store
snapshot, running the aggregation a second time (with the Feature cache
produced by the first run) yields bit-identical Features, and the Scores
derived from them are bit-identical too. -/
theorem aggregation_idempotent (store : SignalStore) (pms : List (Nat × String)) :
    (runAggregation store (runAggregation store [] pms).2 pms).1 =
      (runAggregation store [] pms).1 ∧
    demandScoreOf (runAggregation store (runAggregation store [] pms).2 pms).1 =
      demandScoreOf (runAggregation store [] pms).1 := by
  obtain ⟨h1, h2⟩ := runAggregation_spec store pms [] (cacheConsistent_nil store)
  obtain ⟨h3, _⟩ := runAggregation_spec store pms _ h2
  exact ⟨h3.trans h1.symm, by rw [h3, h1]⟩

/-- Every member of a list of nonnegative rationals is at most the sum. -/
theorem mem_le_sum (l : List ℚ) (hnn : ∀ x ∈ l, 0 ≤ x) : ∀ x ∈ l, x ≤ l.sum := by
  induction l with
  | nil => intro x hx; cases hx
  | cons a l ih =>
      intro x hx
      rcases List.mem_cons.1 hx with rfl | hx
      · have h2 : 0 ≤ l.sum :=
          List.sum_nonneg (fun y hy => hnn y (List.mem_cons_of_mem _ hy))
        rw [List.sum_cons]
        exact le_add_of_nonneg_right h2
      · have h1 : x ≤ l.sum :=
          ih (fun y hy => hnn y (List.mem_cons_of_mem _ hy)) x hx
        have h0 : 0 ≤ a := hnn a (List.mem_cons_self ..)
        rw [List.sum_cons]
        exact h1.trans (le_add_of_nonneg_left h0)

/-- Dividing every entry divides the sum. -/
theorem sum_map_div (l : List ℚ) (d : ℚ) : (l.map (fun x => x / d)).sum = l.sum / d := by
  induction l with
  | nil => simp
  | cons a l ih => simp [List.sum_cons, add_div, ih]

/-- The absolute contributions of the ranked, capped driver set. -/
def rankedAbs (contribs : List (String × ℚ)) : List ℚ :=
  (((contribs.insertionSort (fun a b => |b.2| ≤ |a.2|)).take topK).map (fun sc => |sc.2|))

theorem rankedAbs_nonneg (contribs : List (String × ℚ)) :
    ∀ x ∈ rankedAbs contribs, 0 ≤ x := by
  intro x hx
  obtain ⟨sc, _, rfl⟩ := List.mem_map.1 hx
  exact abs_nonneg _

/-- The weights of the assembled drivers are the ranked absolute
contributions normalized by their sum (zero when the sum vanishes). -/
theorem assembleDrivers_weights (contribs : List (String × ℚ)) :
    (assembleDrivers contribs).map Driver.weight =
      (rankedAbs contribs).map
        (fun x =>
          if (rankedAbs contribs).sum = 0 then 0 else x / (rankedAbs contribs).sum) := by
  simp only [assembleDrivers, rankedAbs, List.map_map]
  rfl

/-- Sum of an all-zero map. -/
theorem sum_map_zero {α : Type} (l : List α) : (l.map (fun _ => (0:ℚ))).sum = 0 := by
  induction l with
  | nil => rfl
  | cons a l ih => simp [ih]

/-- Every weight produced by the Explanation Assembler lies in [0,1]. -/
theorem assembleDrivers_weight_bounds (contribs : List (String × ℚ)) :
    ∀ d ∈ assembleDrivers contribs, 0 ≤ d.weight ∧ d.weight ≤ 1 := by
  intro d hd
  have hw : d.weight ∈ (assembleDrivers contribs).map Driver.weight :=
    List.mem_map_of_mem Driver.weight hd
  rw [assembleDrivers_weights] at hw
  obtain ⟨x, hx, hxe⟩ := List.mem_map.1 hw
  by_cases htot : (rankedAbs contribs).sum = 0
  · rw [if_pos htot] at hxe
    rw [← hxe]
    exact ⟨le_refl 0, zero_le_one⟩
  · rw [if_neg htot] at hxe
    have hnn : 0 ≤ (rankedAbs contribs).sum :=
      List.sum_nonneg (rankedAbs_nonneg contribs)
    have hpos : 0 < (rankedAbs contribs).sum := lt_of_le_of_ne hnn (Ne.symm htot)
    have hxnn : 0 ≤ x := rankedAbs_nonneg contribs x hx
    have hle : x ≤ (rankedAbs contribs).sum :=
      mem_le_sum _ (rankedAbs_nonneg contribs) _ hx
    rw [← hxe]
    exact ⟨div_nonneg hxnn hnn, (div_le_one hpos).2 hle⟩

/-- The weights produced by the Explanation Assembler sum to at most 1. -/
theorem assembleDrivers_sum_le_one (contribs : List (String × ℚ)) :
    ((assembleDrivers contribs).map Driver.weight).sum ≤ 1 := by
  rw [assembleDrivers_weights]
  by_cases htot : (rankedAbs contribs).sum = 0
  · simp only [if_pos htot]
    rw [sum_map_zero]
    exact zero_le_one
  · simp only [if_neg htot]
    rw [sum_map_div, div_self htot]

theorem completeness_nonneg (store : SignalStore) (day : Nat) :
    0 ≤ completeness store day := by
  unfold completeness
  exact div_nonneg (Nat.cast_nonneg _) (by norm_num)

theorem completeness_le_one (store : SignalStore) (day : Nat) :
    completeness store day ≤ 1 := by
  unfold completeness
  rw [div_le_one (by norm_num : (0:ℚ) < 3)]
  have hlen : (expectedSources.filter
      (fun s => store.any (fun x => x.source == s && x.timestamp == day))).length ≤ 3 :=
    List.length_filter_le _ _
  exact_mod_cast hlen

theorem decayFactor_nonneg : 0 ≤ decayFactor := by norm_num [decayFactor]

theorem decayFactor_le_one : decayFactor ≤ 1 := by norm_num [decayFactor]

theorem confidenceAt_nonneg (store : SignalStore) (day : Nat) :
    0 ≤ confidenceAt store day :=
  mul_nonneg (completeness_nonneg store day) (pow_nonneg decayFactor_nonneg day)

theorem confidenceAt_le_one (store : SignalStore) (day : Nat) :
    confidenceAt store day ≤ 1 := by
  unfold confidenceAt
  have h1 : decayFactor ^ day ≤ 1 := pow_le_one₀ decayFactor_nonneg decayFactor_le_one
  calc completeness store day * decayFactor ^ day
      ≤ 1 * 1 :=
        mul_le_mul (completeness_le_one store day) h1
          (pow_nonneg decayFactor_nonneg day) zero_le_one
    _ = 1 := one_mul 1

/-- The default outlook used to state element-access facts about the
response list. -/
def defaultOutlook : Outlook :=
  { date := 0, demand_level := .low, confidence := 0, drivers := [], summary := "" }

/-- The i-th entry of the outlook query response is the i-th day's
Outlook. -/
theorem touristOutlookQuery_getD (store : SignalStore) (location : String) (days : Nat)
    (now : String) (i : Nat) (hi : i < days) :
    ((touristOutlookQuery store location days now).outlook.getD i defaultOutlook) =
      mkOutlook store i := by
  unfold touristOutlookQuery
  simp [List.getD_eq_getElem?_getD, List.getElem?_range, hi]

/-- C4: for a fixed module and location, confidence is monotonically
non-increasing in the forecast horizon - with all else equal (the same
data completeness on the two days), the response's confidence for day N+1
is at most its confidence for day N. -/
theorem confidence_monotone_decay (store : SignalStore) (location : String) (days : Nat)
    (now : String) (n : Nat) (hn : n + 1 < days)
    (heq : completeness store (n + 1) = completeness store n) :
    ((touristOutlookQuery store location days now).outlook.getD (n + 1)
        defaultOutlook).confidence ≤
      ((touristOutlookQuery store location days now).outlook.getD n defaultOutlook).confidence := by
  rw [touristOutlookQuery_getD store location days now (n + 1) hn,
    touristOutlookQuery_getD store location days now n (Nat.lt_of_succ_lt hn)]
  show confidenceAt store (n + 1) ≤ confidenceAt store n
  unfold confidenceAt
  rw [heq]
  have hpow : decayFactor ^ (n + 1) ≤ decayFactor ^ n :=
    pow_le_pow_of_le_one decayFactor_nonneg decayFactor_le_one (Nat.le_succ n)
  exact mul_le_mul_of_nonneg_left hpow (completeness_nonneg store n)

theorem confidence_monotone_decay_witness :
    ((touristOutlookQuery [] "Santa Cruz" 2 "t").outlook.getD 1 defaultOutlook).confidence ≤
      ((touristOutlookQuery [] "Santa Cruz" 2 "t").outlook.getD 0 defaultOutlook).confidence :=
  confidence_monotone_decay [] "Santa Cruz" 2 "t" 0 (by decide) rfl

/-- C2: for every Outlook produced by the engine, each driver weight lies
in [0,1] and the driver weights sum to at most 1. -/
theorem driver_weights_normalized (store : SignalStore) (location : String) (days : Nat)
    (now : String) :
    ∀ o ∈ (touristOutlookQuery store location days now).outlook,
      ((o.drivers.map Driver.weight).sum ≤ 1 ∧
        ∀ d ∈ o.drivers, 0 ≤ d.weight ∧ d.weight ≤ 1) := by
  intro o ho
  obtain ⟨i, _, rfl⟩ := List.mem_map.1 ho
  exact ⟨assembleDrivers_sum_le_one _, assembleDrivers_weight_bounds _⟩

theorem driver_weights_normalized_witness :
    (((mkOutlook [⟨"events", "events", 0, 10⟩] 0).drivers.map Driver.weight).sum ≤ 1 ∧
      ∀ d ∈ (mkOutlook [⟨"events", "events", 0, 10⟩] 0).drivers,
        0 ≤ d.weight ∧ d.weight ≤ 1) :=
  driver_weights_normalized [⟨"events", "events", 0, 10⟩] "Santa Cruz" 1 "t"
    (mkOutlook [⟨"events", "events", 0, 10⟩] 0) (by simp [touristOutlookQuery, List.range_succ])

theorem tierToString_mem (t : Tier) :
    tierToString t ∈ ["low", "moderate", "high", "very_high"] := by
  cases t <;> simp [tierToString]

theorem impactToString_mem (i : Impact) :
    impactToString i ∈ ["positive", "negative", "neutral"] := by
  cases i <;> simp [impactToString]

/-- C1: every outlook query response is an ordered sequence of Outlooks,
one per day of the requested horizon (the dates are exactly the horizon's
day offsets in order), together with the generated_at timestamp and the
echoed location; each Outlook carries a demand level that serializes to
one of the four lowercase snake-case tier strings, a confidence in [0,1],
drivers whose impacts serialize to positive/negative/neutral and whose
weights lie in [0,1], and a summary string. -/
theorem touristOutlook_response_shape (store : SignalStore) (location : String)
    (days : Nat) (now : String) :
    (touristOutlookQuery store location days now).location = location ∧
    (touristOutlookQuery store location days now).generated_at = now ∧
    (touristOutlookQuery store location days now).outlook.map Outlook.date =
      List.range days ∧
    ∀ o ∈ (touristOutlookQuery store location days now).outlook,
      tierToString o.demand_level ∈ ["low", "moderate", "high", "very_high"] ∧
      0 ≤ o.confidence ∧ o.confidence ≤ 1 ∧
      o.summary = summaryFor o.demand_level (o.drivers.headD emptyDriver).impact ∧
      ∀ d ∈ o.drivers,
        impactToString d.impact ∈ ["positive", "negative", "neutral"] ∧
        0 ≤ d.weight ∧ d.weight ≤ 1 := by
  refine ⟨rfl, rfl, ?_, ?_⟩
  · show ((List.range days).map (mkOutlook store)).map Outlook.date = List.range days
    rw [List.map_map]
    have hf : (Outlook.date ∘ mkOutlook store) = id := funext (fun i => rfl)
    rw [hf, List.map_id]
  · intro o ho
    obtain ⟨i, _, rfl⟩ := List.mem_map.1 ho
    refine ⟨tierToString_mem _, confidenceAt_nonneg store i, confidenceAt_le_one store i,
      rfl, ?_⟩
    intro d hd
    have hb := assembleDrivers_weight_bounds (rawContributions store i) d hd
    exact ⟨impactToString_mem _, hb.1, hb.2⟩

theorem touristOutlook_response_shape_witness :
    ((touristOutlookQuery [] "Santa Cruz" 1 "now").location = "Santa Cruz" ∧
      (touristOutlookQuery [] "Santa Cruz" 1 "now").generated_at = "now" ∧
      (touristOutlookQuery [] "Santa Cruz" 1 "now").outlook.map Outlook.date =
        List.range 1) ∧
    (tierToString (mkOutlook [] 0).demand_level ∈ ["low", "moderate", "high", "very_high"] ∧
      0 ≤ (mkOutlook [] 0).confidence ∧ (mkOutlook [] 0).confidence ≤ 1) := by
  have h := touristOutlook_response_shape [] "Santa Cruz" 1 "now"
  have hmem : mkOutlook [] 0 ∈ (touristOutlookQuery [] "Santa Cruz" 1 "now").outlook := by
    simp [touristOutlookQuery, List.range_succ]
  have he := h.2.2.2 (mkOutlook [] 0) hmem
  exact ⟨⟨h.1, h.2.1, h.2.2.1⟩, he.1, he.2.1, he.2.2.1⟩

theorem promoteFrom_stay (c : HystConfig) (fuel t : Nat) (x : ℚ)
    (h : ¬(t < 3 ∧ c.up t ≤ x)) : promoteFrom c fuel t x = t := by
  cases fuel with
  | zero => rfl
  | succ fuel => simp [promoteFrom, h]

/-- From a level whose promotion threshold the score has not reached and
whose demotion threshold (of the level below) it has not fallen under, the
classifier stays put. -/
theorem stepTier_within (c : HystConfig) (k : Nat) (x : ℚ)
    (hdm : c.down (k - 1) ≤ c.down k)
    (hx1 : c.down k ≤ x) (hx2 : x < c.up k) : stepTier c k x = k := by
  unfold stepTier
  have hp : promoteFrom c 3 k x = k :=
    promoteFrom_stay c 3 k x (by rintro ⟨_, h⟩; exact absurd hx2 (not_lt.2 h))
  rw [hp]
  cases k with
  | zero => simp [demoteFrom]
  | succ j =>
      have hj : ¬(x < c.down j) := by
        refine not_lt.2 (le_trans ?_ hx1)
        simpa using hdm
      simp [demoteFrom, hj]

/-- Crossing the upper threshold promotes by one level (the score stays
below the next promotion threshold), and the strictly lower demotion
threshold does not immediately undo it. -/
theorem stepTier_promote (c : HystConfig) (k : Nat) (x : ℚ) (hk : k < 3)
    (hdu : c.down k < c.up k)
    (hx1 : c.up k ≤ x) (hx2 : k + 1 < 3 → x < c.up (k + 1)) :
    stepTier c k x = k + 1 := by
  unfold stepTier
  have hp : promoteFrom c 3 k x = k + 1 := by
    have h1 : k < 3 ∧ c.up k ≤ x := ⟨hk, hx1⟩
    have h2 : promoteFrom c 2 (k + 1) x = k + 1 :=
      promoteFrom_stay c 2 (k + 1) x
        (by rintro ⟨hlt, hle⟩; exact absurd (hx2 hlt) (not_lt.2 hle))
    show (if k < 3 ∧ c.up k ≤ x then promoteFrom c 2 (k + 1) x else k) = k + 1
    rw [if_pos h1, h2]
  rw [hp]
  have hno : ¬(x < c.down k) := not_lt.2 (le_trans hdu.le hx1)
  simp [demoteFrom, hno]

/-- Once one level above the band, a score that stays at or above the
demotion threshold and below the next promotion threshold leaves the tier
unchanged. -/
theorem stepTier_upper (c : HystConfig) (k : Nat) (x : ℚ)
    (hx1 : c.down k ≤ x) (hx2 : k + 1 < 3 → x < c.up (k + 1)) :
    stepTier c (k + 1) x = k + 1 := by
  unfold stepTier
  have hp : promoteFrom c 3 (k + 1) x = k + 1 :=
    promoteFrom_stay c 3 (k + 1) x
      (by rintro ⟨hlt, hle⟩; exact absurd (hx2 hlt) (not_lt.2 hle))
  rw [hp]
  simp [demoteFrom, not_lt.2 hx1]

theorem changeCount_cons_traj (c : HystConfig) (a t : Nat) (xs : List ℚ) :
    changeCount (a :: tierTrajectory c t xs) =
      (if a = t then 0 else 1) + changeCount (tierTrajectory c t xs) := by
  cases xs <;> simp [tierTrajectory, changeCount]

/-- A trajectory every step of which is a fixed point never changes tier. -/
theorem trajectory_stable (c : HystConfig) (t : Nat) (xs : List ℚ)
    (hall : ∀ x ∈ xs, stepTier c t x = t) :
    changeCount (tierTrajectory c t xs) = 0 := by
  induction xs with
  | nil => simp [tierTrajectory, changeCount]
  | cons x xs ih =>
      have hx := hall x (List.mem_cons_self ..)
      show changeCount (t :: tierTrajectory c (stepTier c t x) xs) = 0
      rw [hx, changeCount_cons_traj]
      simp [ih (fun y hy => hall y (List.mem_cons_of_mem _ hy))]

/-- C3: for every score sequence oscillating between values just above and
just below a single promotion threshold `up k` - every score staying at or
above the wider band's lower edge `down k` and below the next promotion
threshold - the classifier starting at level `k` changes tier at most once
over the whole sequence: moving up requires crossing `up k` and moving back
down would require falling below the strictly lower `down k`, so the tier
never flaps on consecutive periods. -/
theorem hysteresis_no_flap (c : HystConfig) (k : Nat) (hk : k < 3)
    (hdu : c.down k < c.up k) (hdm : c.down (k - 1) ≤ c.down k)
    (xs : List ℚ)
    (hband : ∀ x ∈ xs, c.down k ≤ x ∧ (k + 1 < 3 → x < c.up (k + 1))) :
    changeCount (tierTrajectory c k xs) ≤ 1 := by
  induction xs with
  | nil => simp [tierTrajectory, changeCount]
  | cons x xs ih =>
      have hx := hband x (List.mem_cons_self ..)
      show changeCount (k :: tierTrajectory c (stepTier c k x) xs) ≤ 1
      by_cases hup : x < c.up k
      · rw [stepTier_within c k x hdm hx.1 hup, changeCount_cons_traj]
        rw [if_pos rfl, zero_add]
        exact ih (fun y hy => hband y (List.mem_cons_of_mem _ hy))
      · rw [stepTier_promote c k x hk hdu (not_lt.1 hup) hx.2, changeCount_cons_traj]
        have hstable : changeCount (tierTrajectory c (k + 1) xs) = 0 :=
          trajectory_stable c (k + 1) xs
            (fun y hy =>
              stepTier_upper c k y (hband y (List.mem_cons_of_mem _ hy)).1
                (hband y (List.mem_cons_of_mem _ hy)).2)
        rw [hstable]
        simp

theorem hysteresis_no_flap_witness :
    changeCount (tierTrajectory tourismHyst 1 [59, 61, 59, 61, 59]) ≤ 1 :=
  hysteresis_no_flap tourismHyst 1 (by decide) (by decide) (by decide)
    [59, 61, 59, 61, 59] (by decide)

end Harbor
